import Mathlib

/-!
# Chrome Web Store policy validator — a shallow embedding

This file embeds the store-policy validation engine of the repository
(`StoreValidator` component: the five check functions
`validateManifestRequirements`, `validateIconRequirements`,
`validatePermissionRequirements`, `validatePrivacyRequirements`,
`validateContentPolicies`, the driver `validateForStore` and the scorer
`calculateOverallScore`) and proves the specified properties about it.

The manifest is an untyped JSON document, so we model JSON values
(`JValue`) together with the JavaScript semantics the code relies on:
truthiness, property lookup, `Object.entries`, string coercion in template
literals and `Array.prototype.join`, `String(x)` coercion by `RegExp.test`,
and the places where the original code can throw a `TypeError`
(`for..of` over a non-iterable, `.some`/`.includes` on values that do not
have them).  Checks that can throw return `Except String _`; the error
carries the kind of `TypeError` raised.
-/

namespace StoreValidator

/-- A JSON value, as produced by `JSON.parse`.  Numbers are modelled as
integers; every numeric literal the validator compares against or produces
is an integer. -/
inductive JValue where
  | null
  | bool (b : Bool)
  | num (n : Int)
  | str (s : String)
  | arr (elems : List JValue)
  | obj (fields : List (String × JValue))

/-- The manifest: the key-value document obtained from `JSON.parse` of
`manifest.json`.  Property lookup takes the first binding; JSON objects
have unique keys. -/
abbrev Manifest := List (String × JValue)

/-- One uploaded file, as the validator sees it: a name and a byte size
(`File.name`, `File.size`). -/
structure FileRec where
  name : String
  size : Nat
deriving DecidableEq

/-- JavaScript truthiness of a value. -/
def truthy : JValue → Bool
  | .null => false
  | .bool b => b
  | .num n => n != 0
  | .str s => s != ""
  | .arr _ => true
  | .obj _ => true

/-- Truthiness of a possibly-`undefined` value (`none` = `undefined`). -/
def truthyOpt : Option JValue → Bool
  | none => false
  | some v => truthy v

/-- `manifest[field]` — property lookup on the manifest object;
`none` models `undefined`. -/
def lookupField (m : Manifest) (k : String) : Option JValue :=
  List.lookup k m

/-- The JavaScript `.length` property read as a number: defined for
strings and arrays, `undefined` (`none`) otherwise. -/
def jsLength : JValue → Option Nat
  | .str s => some s.length
  | .arr xs => some xs.length
  | _ => none

mutual

/-- `String(v)` — JavaScript string coercion, as used by template
literals and `RegExp.prototype.test`. -/
def jsToString : JValue → String
  | .null => "null"
  | .bool b => if b then "true" else "false"
  | .num n => toString n
  | .str s => s
  | .arr xs => jsJoinList xs
  | .obj _ => "[object Object]"

/-- `Array.prototype.join(",")` over coerced elements (the default
array-to-string conversion). -/
def jsJoinList : List JValue → String
  | [] => ""
  | [v] => jsElemString v
  | v :: rest => jsElemString v ++ "," ++ jsJoinList rest

/-- Element coercion inside `Array.prototype.join`: `null` becomes the
empty string, everything else is coerced with `String(v)`. -/
def jsElemString : JValue → String
  | .null => ""
  | .bool b => if b then "true" else "false"
  | .num n => toString n
  | .str s => s
  | .arr xs => jsJoinList xs
  | .obj _ => "[object Object]"

end

/-- `Object.entries(v)`: the own enumerable string-keyed entries — the
fields of an object, the indexed characters of a string, the indexed
elements of an array, and nothing for other primitives. -/
def jsEntries : JValue → List (String × JValue)
  | .obj fs => fs
  | .str s => (s.toList.enum).map (fun p => (toString p.1, JValue.str p.2.toString))
  | .arr xs => (xs.enum).map (fun p => (toString p.1, p.2))
  | _ => []

/-- `v[k]` — indexed property access used on `manifest.icons`:
object-field lookup, or indexed access for strings and arrays, and
`undefined` for other primitives. -/
def jsIndex (v : JValue) (k : String) : Option JValue :=
  match v with
  | .obj fs => List.lookup k fs
  | .str _ => List.lookup k (jsEntries v)
  | .arr _ => List.lookup k (jsEntries v)
  | _ => none

/-- Does the character list `hay` start with `needle`? -/
def startsWithCs : List Char → List Char → Bool
  | [], _ => true
  | _ :: _, [] => false
  | a :: as, b :: bs => b == a && startsWithCs as bs

/-- Substring test on character lists: some suffix of `hay` starts with
`needle`. -/
def containsSubCs (needle : List Char) : List Char → Bool
  | [] => startsWithCs needle []
  | c :: rest => startsWithCs needle (c :: rest) || containsSubCs needle rest

/-- `hay.includes(needle)` for strings — substring containment. -/
def containsSub (hay needle : String) : Bool :=
  containsSubCs needle.toList hay.toList

/-- `(bytes / 1024 / 1024).toFixed(1)` — the byte count expressed in MiB,
rounded to one decimal place (round half away from zero over the exact
rational value; the inputs exercised are exact, so this agrees with the
floating-point computation of the source). -/
def toFixed1MiB (bytes : Nat) : String :=
  let tenths := (bytes * 10 + 524288) / 1048576
  toString (tenths / 10) ++ "." ++ toString (tenths % 10)

/-- Finding category (`StoreValidationResult.category`). -/
inductive Category where
  | manifest | icons | privacy | content | permissions | metadata
deriving DecidableEq

/-- Finding kind (`StoreValidationResult.type`). -/
inductive FindingType where
  | error | warning | info | success
deriving DecidableEq

/-- Finding severity (`StoreValidationResult.severity`). -/
inductive Severity where
  | critical | high | medium | low
deriving DecidableEq

/-- One validation finding (`StoreValidationResult`). -/
structure StoreValidationResult where
  category : Category
  type : FindingType
  title : String
  message : String
  requirement : String
  suggestion : Option String
  severity : Severity
deriving DecidableEq

/-! ## The rulebook (`STORE_REQUIREMENTS`) -/

namespace STORE_REQUIREMENTS

def manifestRequiredFields : List String :=
  ["name", "version", "description", "manifest_version"]

def nameLengthMin : Nat := 3
def nameLengthMax : Nat := 45
def descriptionLengthMin : Nat := 10
def descriptionLengthMax : Nat := 132

def iconsRequiredSizes : List Nat := [16, 48, 128]
def iconsRecommendedSizes : List Nat := [19, 38, 32, 64, 96]
def iconsMaxFileSize : Nat := 2 * 1024 * 1024

def permissionsDangerous : List String :=
  ["<all_urls>", "http://*/*", "https://*/*", "tabs", "history", "bookmarks"]

def contentMaxPackageSize : Nat := 128 * 1024 * 1024
def prohibitedContent : List String :=
  ["cryptocurrency", "mining", "adult", "violence"]

def dataCollectionApis : List String :=
  ["identity", "cookies", "history", "tabs"]

end STORE_REQUIREMENTS

/-- The version pattern `^\d+(\.\d+)*$`: one or more dot-separated runs of
one or more digits. -/
def versionFormatTest (s : String) : Bool :=
  (s.splitOn ".").all (fun part => part != "" && part.toList.all Char.isDigit)

/-! ## Manifest check (`validateManifestRequirements`) -/

/-- The critical finding for a required manifest field that is missing
(falsy). -/
def mkMissingField (field : String) : StoreValidationResult :=
  { category := .manifest
    type := .error
    severity := .critical
    title := "Missing " ++ field
    message := "The " ++ field ++ " field is required for Chrome Web Store"
    requirement := "Chrome Web Store requires all extensions to have basic metadata"
    suggestion := some ("Add \"" ++ field ++ "\" field to your manifest.json") }

def nameTooShortFinding : StoreValidationResult :=
  { category := .manifest
    type := .error
    severity := .high
    title := "Name too short"
    message := "Extension name must be at least 3 characters"
    requirement := "Chrome Web Store naming requirements"
    suggestion := some "Choose a more descriptive name for your extension" }

def nameTooLongFinding : StoreValidationResult :=
  { category := .manifest
    type := .error
    severity := .high
    title := "Name too long"
    message := "Extension name must be no more than 45 characters"
    requirement := "Chrome Web Store naming requirements"
    suggestion := some "Shorten your extension name" }

def descTooShortFinding : StoreValidationResult :=
  { category := .manifest
    type := .error
    severity := .high
    title := "Description too short"
    message := "Description must be at least 10 characters"
    requirement := "Chrome Web Store requires meaningful descriptions"
    suggestion := some "Provide a more detailed description of your extension\x27s functionality" }

def descTooLongFinding : StoreValidationResult :=
  { category := .manifest
    type := .warning
    severity := .medium
    title := "Description too long"
    message := "Description should be no more than 132 characters"
    requirement := "Chrome Web Store description guidelines"
    suggestion := some "Shorten your description to be more concise" }

def invalidVersionFinding : StoreValidationResult :=
  { category := .manifest
    type := .error
    severity := .high
    title := "Invalid version format"
    message := "Version must follow semantic versioning (e.g., 1.0.0)"
    requirement := "Chrome Web Store version requirements"
    suggestion := some "Use format like 1.0.0 or 2.1.3" }

def manifestV2Finding : StoreValidationResult :=
  { category := .manifest
    type := .warning
    severity := .high
    title := "Manifest V2 deprecation"
    message := "Manifest V2 extensions will stop working in 2024"
    requirement := "Chrome Web Store is transitioning to Manifest V3"
    suggestion := some "Migrate to Manifest V3 for future compatibility" }

/-- The required-field loop: `if (!manifest[field])` — the JavaScript
truthiness test — pushes a critical finding, in `required_fields`
order. -/
def missingFieldFindings (manifest : Manifest) : List StoreValidationResult :=
  STORE_REQUIREMENTS.manifestRequiredFields.filterMap
    (fun field =>
      if truthyOpt (lookupField manifest field) then none else some (mkMissingField field))

/-- The name-length branch (`if (manifest.name) { ... }`).  A length
comparison against an `undefined` `.length` (a non-string, non-array
value) is false, exactly as in `undefined < 3`. -/
def nameLengthFindings (manifest : Manifest) : List StoreValidationResult :=
  if truthyOpt (lookupField manifest "name") then
    match (lookupField manifest "name").bind jsLength with
    | some n =>
        if n < STORE_REQUIREMENTS.nameLengthMin then [nameTooShortFinding]
        else if n > STORE_REQUIREMENTS.nameLengthMax then [nameTooLongFinding]
        else []
    | none => []
  else []

/-- The description-length branch (`if (manifest.description) { ... }`). -/
def descriptionLengthFindings (manifest : Manifest) : List StoreValidationResult :=
  if truthyOpt (lookupField manifest "description") then
    match (lookupField manifest "description").bind jsLength with
    | some n =>
        if n < STORE_REQUIREMENTS.descriptionLengthMin then [descTooShortFinding]
        else if n > STORE_REQUIREMENTS.descriptionLengthMax then [descTooLongFinding]
        else []
    | none => []
  else []

/-- The version-format branch
(`if (manifest.version && !pattern.test(manifest.version))`);
`RegExp.prototype.test` coerces its argument with `String(v)`. -/
def versionFormatFindings (manifest : Manifest) : List StoreValidationResult :=
  match lookupField manifest "version" with
  | some v =>
      if truthy v && !versionFormatTest (jsToString v) then [invalidVersionFinding] else []
  | none => []

/-- The Manifest-V2 branch (`if (manifest.manifest_version === 2)`);
strict equality only matches the number `2`. -/
def manifestVersionFindings (manifest : Manifest) : List StoreValidationResult :=
  match lookupField manifest "manifest_version" with
  | some (.num 2) => [manifestV2Finding]
  | _ => []

/-- `validateManifestRequirements(manifest, results)` — the findings it
appends, in push order: required-field loop, then the name-, description-,
version- and manifest-version branches. -/
def validateManifestRequirements (manifest : Manifest) : List StoreValidationResult :=
  missingFieldFindings manifest ++ nameLengthFindings manifest ++
    descriptionLengthFindings manifest ++ versionFormatFindings manifest ++
    manifestVersionFindings manifest

/-! ## Icons check (`validateIconRequirements`) -/

def noIconsFinding : StoreValidationResult :=
  { category := .icons
    type := .error
    severity := .critical
    title := "No icons specified"
    message := "Chrome Web Store requires extension icons"
    requirement := "Icons are mandatory for store listing"
    suggestion := some "Add icons field to manifest with at least 16px, 48px, and 128px sizes" }

def mkMissingRequiredIcon (size : Nat) : StoreValidationResult :=
  { category := .icons
    type := .error
    severity := .high
    title := "Missing " ++ toString size ++ "px icon"
    message := toString size ++ "px icon is required for Chrome Web Store"
    requirement := "Chrome Web Store icon requirements"
    suggestion := some ("Add a " ++ toString size ++ "x" ++ toString size ++ " pixel icon to your extension") }

def mkMissingRecommendedIcon (size : Nat) : StoreValidationResult :=
  { category := .icons
    type := .info
    severity := .low
    title := "Recommended " ++ toString size ++ "px icon missing"
    message := toString size ++ "px icon is recommended for better display"
    requirement := "Chrome Web Store icon best practices"
    suggestion := some ("Consider adding a " ++ toString size ++ "x" ++ toString size ++ " pixel icon") }

def mkIconNotFound (iconPath : JValue) : StoreValidationResult :=
  { category := .icons
    type := .error
    severity := .high
    title := "Icon file not found"
    message := "Icon file " ++ jsToString iconPath ++ " referenced in manifest but not found"
    requirement := "All referenced files must be included"
    suggestion := some ("Include the " ++ jsToString iconPath ++ " file in your extension package") }

def mkLargeIcon (iconPath : JValue) (size : Nat) : StoreValidationResult :=
  { category := .icons
    type := .warning
    severity := .medium
    title := "Large icon file"
    message := "Icon " ++ jsToString iconPath ++ " is " ++ toFixed1MiB size ++ "MB"
    requirement := "Keep icon files small for faster loading"
    suggestion := some "Optimize icon files to reduce size" }

/-- `f.name === iconPath || f.name.endsWith(iconPath)` — strict equality
only succeeds against a string path; `endsWith` coerces its argument with
`String(iconPath)`. -/
def iconFileMatches (f : FileRec) (iconPath : JValue) : Bool :=
  (match iconPath with
   | .str s => f.name == s
   | _ => false) ||
  (jsToString iconPath).toList.isSuffixOf f.name.toList

/-- `files.find(f => f.name === iconPath || f.name.endsWith(iconPath))`. -/
def findIconFile (files : List FileRec) (iconPath : JValue) : Option FileRec :=
  files.find? (fun f => iconFileMatches f iconPath)

/-- The findings of the per-entry loop body for one `(size, path)` entry of
`Object.entries(manifest.icons)`. -/
def iconEntryFindings (files : List FileRec) (iconPath : JValue) : List StoreValidationResult :=
  match findIconFile files iconPath with
  | none => [mkIconNotFound iconPath]
  | some iconFile =>
      if iconFile.size > STORE_REQUIREMENTS.iconsMaxFileSize then
        [mkLargeIcon iconPath iconFile.size]
      else []

/-- `validateIconRequirements(manifest, files, results)` — if `icons` is
falsy the check reports one critical finding and returns; otherwise it
reports missing required sizes, missing recommended sizes (both by
truthiness of the indexed entry), and then walks every declared entry
checking file presence and file size. -/
def validateIconRequirements (manifest : Manifest) (files : List FileRec) :
    List StoreValidationResult :=
  match lookupField manifest "icons" with
  | none => [noIconsFinding]
  | some icons =>
    if truthy icons then
      let requiredFindings := STORE_REQUIREMENTS.iconsRequiredSizes.filterMap
        (fun size =>
          if truthyOpt (jsIndex icons (toString size)) then none
          else some (mkMissingRequiredIcon size))
      let recommendedFindings := STORE_REQUIREMENTS.iconsRecommendedSizes.filterMap
        (fun size =>
          if truthyOpt (jsIndex icons (toString size)) then none
          else some (mkMissingRecommendedIcon size))
      let entryFindings :=
        ((jsEntries icons).map (fun entry => iconEntryFindings files entry.2)).flatten
      requiredFindings ++ recommendedFindings ++ entryFindings
    else [noIconsFinding]

/-! ## Permissions check (`validatePermissionRequirements`) -/

def mkBroadPermission (permission : String) : StoreValidationResult :=
  { category := .permissions
    type := .warning
    severity := .high
    title := "Broad permission: " ++ permission
    message := "This permission may require additional review"
    requirement := "Chrome Web Store reviews extensions with broad permissions carefully"
    suggestion := some "Consider using more specific permissions if possible" }

def mkManyPermissions (count : Nat) : StoreValidationResult :=
  { category := .permissions
    type := .warning
    severity := .medium
    title := "Many permissions requested"
    message := "Extension requests " ++ toString count ++ " permissions"
    requirement := "Extensions should request minimal permissions"
    suggestion := some "Review if all permissions are necessary" }

def hostPermissionFinding : StoreValidationResult :=
  { category := .permissions
    type := .error
    severity := .high
    title := "Host permissions in wrong field"
    message := "Host permissions should be in host_permissions field in Manifest V3"
    requirement := "Manifest V3 permission structure"
    suggestion := some "Move URL patterns to host_permissions field" }

/-- `for..of` iteration: arrays yield their elements, strings their
characters; every other value raises a `TypeError`. -/
def jsIterate : JValue → Except String (List JValue)
  | .arr xs => .ok xs
  | .str s => .ok (s.toList.map (fun c => JValue.str c.toString))
  | _ => .error "TypeError: value is not iterable"

/-- `p.includes("://")` inside the Manifest-V3 host-permission test:
substring test for a string element, element membership (by strict
equality, which only a string `"://"` element can satisfy) for an array
element, and a `TypeError` for anything else. -/
def jsElemIncludesScheme : JValue → Except String Bool
  | .str s => .ok (containsSub s "://")
  | .arr xs => .ok (xs.any (fun v => match v with | .str t => t == "://" | _ => false))
  | _ => .error "TypeError: includes is not a function"

/-- `elems.some(p => p.includes("://"))` — short-circuiting, so an element
that would throw is only reached if no earlier element matched. -/
def someIncludesScheme : List JValue → Except String Bool
  | [] => .ok false
  | p :: rest => do
      let b ← jsElemIncludesScheme p
      if b then .ok true else someIncludesScheme rest

/-- `manifest.permissions.some(p => p.includes("://"))`: only arrays have
`.some`; a truthy non-array raises a `TypeError`. -/
def permsSomeIncludesScheme : JValue → Except String Bool
  | .arr xs => someIncludesScheme xs
  | _ => .error "TypeError: some is not a function"

/-- `validatePermissionRequirements(manifest, results)` — returns early
with no findings when `permissions` is falsy; otherwise iterates the
permissions (dangerous-permission warnings), checks the count, and under
`manifest_version === 3` runs the host-permission test.  `Except.error`
models the `TypeError` the original code raises on a truthy non-iterable
`permissions` value (or a `.some`/`.includes` call on a value that lacks
it). -/
def validatePermissionRequirements (manifest : Manifest) :
    Except String (List StoreValidationResult) :=
  let permsOpt := lookupField manifest "permissions"
  if !truthyOpt permsOpt then .ok [] else
  match permsOpt with
  | none => .ok []
  | some perms => do
    let elems ← jsIterate perms
    let dangerousFindings := elems.filterMap (fun p =>
      match p with
      | .str s =>
          if STORE_REQUIREMENTS.permissionsDangerous.contains s then
            some (mkBroadPermission s)
          else none
      | _ => none)
    let countFindings :=
      match jsLength perms with
      | some n => if n > 10 then [mkManyPermissions n] else []
      | none => []
    let hostFindings ←
      match lookupField manifest "manifest_version" with
      | some (.num 3) => do
          let b ← permsSomeIncludesScheme perms
          pure (if b then [hostPermissionFinding] else [])
      | _ => pure []
    .ok (dangerousFindings ++ countFindings ++ hostFindings)

/-! ## Privacy check (`validatePrivacyRequirements`) -/

def privacyPolicyRequiredFinding : StoreValidationResult :=
  { category := .privacy
    type := .error
    severity := .critical
    title := "Privacy policy required"
    message := "Extensions that collect user data must have a privacy policy"
    requirement := "Chrome Web Store privacy requirements"
    suggestion := some "Add privacy policy URL to your developer dashboard" }

def identityPermissionFinding : StoreValidationResult :=
  { category := .privacy
    type := .info
    severity := .medium
    title := "Identity permission detected"
    message := "Extension can access user identity information"
    requirement := "Clearly explain why identity access is needed"
    suggestion := some "Document identity usage in your privacy policy" }

def cookiesPermissionFinding : StoreValidationResult :=
  { category := .privacy
    type := .info
    severity := .medium
    title := "Cookie access detected"
    message := "Extension can access website cookies"
    requirement := "Explain cookie usage to users"
    suggestion := some "Document cookie handling in your privacy policy" }

/-- `manifest.permissions?.some(p => apis.includes(p))` — optional
chaining makes a nullish `permissions` yield `undefined` (falsy); an
array is searched by strict equality (only string elements can match a
list of strings); any other value lacks `.some` and raises a
`TypeError`. -/
def permsSomeInList (permsOpt : Option JValue) (apis : List String) :
    Except String Bool :=
  match permsOpt with
  | none => .ok false
  | some .null => .ok false
  | some (.arr xs) => .ok (xs.any (fun p =>
      match p with
      | .str s => apis.contains s
      | _ => false))
  | some _ => .error "TypeError: some is not a function"

/-- `manifest.permissions?.includes(needle)` — optional chaining, strict
element equality for arrays, substring search for strings. -/
def permsIncludes (permsOpt : Option JValue) (needle : String) :
    Except String Bool :=
  match permsOpt with
  | none => .ok false
  | some .null => .ok false
  | some (.str s) => .ok (containsSub s needle)
  | some (.arr xs) => .ok (xs.any (fun p =>
      match p with
      | .str t => t == needle
      | _ => false))
  | some _ => .error "TypeError: includes is not a function"

/-- `validatePrivacyRequirements(manifest, results)` — the
data-collection gate for the privacy policy, then the `identity` and
`cookies` informational findings. -/
def validatePrivacyRequirements (manifest : Manifest) :
    Except String (List StoreValidationResult) := do
  let permsOpt := lookupField manifest "permissions"
  let collectsData ← permsSomeInList permsOpt STORE_REQUIREMENTS.dataCollectionApis
  let policyFindings :=
    if collectsData && !truthyOpt (lookupField manifest "privacy_policy") then
      [privacyPolicyRequiredFinding]
    else []
  let hasIdentity ← permsIncludes permsOpt "identity"
  let identityFindings := if hasIdentity then [identityPermissionFinding] else []
  let hasCookies ← permsIncludes permsOpt "cookies"
  let cookiesFindings := if hasCookies then [cookiesPermissionFinding] else []
  .ok (policyFindings ++ identityFindings ++ cookiesFindings)

/-! ## Content check (`validateContentPolicies`) -/

def mkPackageTooLarge (totalSize : Nat) : StoreValidationResult :=
  { category := .content
    type := .error
    severity := .high
    title := "Package too large"
    message := "Extension package is " ++ toFixed1MiB totalSize ++ "MB"
    requirement := "Chrome Web Store has a 128MB size limit"
    suggestion := some "Reduce package size by optimizing assets" }

def mkProhibitedContent (prohibited : String) : StoreValidationResult :=
  { category := .content
    type := .warning
    severity := .high
    title := "Potentially prohibited content"
    message := "Content may contain references to " ++ prohibited
    requirement := "Chrome Web Store content policies"
    suggestion := some "Review content policy compliance" }

def multipleFunctionalitiesFinding : StoreValidationResult :=
  { category := .content
    type := .info
    severity := .low
    title := "Multiple functionalities detected"
    message := "Extension has multiple types of functionality"
    requirement := "Chrome Web Store prefers single-purpose extensions"
    suggestion := some "Ensure all features serve a cohesive purpose" }

/-- The value of a decimal-integer string under `Number(...)` coercion. -/
def natOfDigits (cs : List Char) : Nat :=
  cs.foldl (fun acc c => acc * 10 + (c.toNat - 48)) 0

/-- `Number(s)` for the strings this model needs: the empty string is `0`,
an optionally-signed run of digits is its value, anything else is `NaN`
(`none`). -/
def jsNumOfString (s : String) : Option Int :=
  if s == "" then some 0 else
  match s.toList with
  | '-' :: rest =>
      if rest != [] && rest.all Char.isDigit then some (-(natOfDigits rest : Int)) else none
  | cs => if cs.all Char.isDigit then some (natOfDigits cs : Int) else none

/-- Numeric coercion of a value, `none` modelling `NaN`. -/
def jsNumCoerce : JValue → Option Int
  | .null => some 0
  | .bool b => some (if b then 1 else 0)
  | .num n => some n
  | .str s => jsNumOfString s
  | .arr xs => jsNumOfString (jsToString (.arr xs))
  | .obj _ => none

/-- The `.length` property as a value: string and array lengths, the
`length` field of a plain object, `undefined` otherwise. -/
def jsLengthProp : JValue → Option JValue
  | .str s => some (.num s.length)
  | .arr xs => some (.num xs.length)
  | .obj fs => List.lookup "length" fs
  | _ => none

/-- `v > 0` with JavaScript numeric coercion; a comparison against
`undefined` or `NaN` is false. -/
def jsGtZeroOpt : Option JValue → Bool
  | none => false
  | some v =>
      match jsNumCoerce v with
      | some n => decide (n > 0)
      | none => false

/-- `manifest.content_scripts?.length > 0`. -/
def contentScriptsCounted (csOpt : Option JValue) : Bool :=
  match csOpt with
  | none => false
  | some .null => false
  | some v => jsGtZeroOpt (jsLengthProp v)

/-- `files.reduce((sum, file) => sum + file.size, 0)`. -/
def totalFileSize (files : List FileRec) : Nat :=
  files.foldl (fun sum f => sum + f.size) 0

/-- `.toLowerCase()` — modelled as per-character ASCII lowering
(`Char.toLower`); the prohibited keywords scanned for are ASCII, so this
agrees with the Unicode-aware JavaScript conversion on them. -/
def jsToLower (s : String) : String :=
  String.mk (s.toList.map Char.toLower)

/-- `[manifest.name, manifest.description].join(" ").toLowerCase()`:
`Array.prototype.join` coerces `undefined` and `null` to the empty
string and everything else with `String(v)`. -/
def joinedText (manifest : Manifest) : String :=
  let part := fun (v : Option JValue) =>
    match v with
    | none => ""
    | some w => jsElemString w
  jsToLower (part (lookupField manifest "name") ++ " " ++
    part (lookupField manifest "description"))

/-- The purpose count of the single-purpose heuristic:
`(content_scripts?.length > 0 ? 1 : 0) + (background ? 1 : 0) +
(action || browser_action ? 1 : 0) + (options_page ? 1 : 0)`. -/
def purposeCount (manifest : Manifest) : Nat :=
  (if contentScriptsCounted (lookupField manifest "content_scripts") then 1 else 0) +
  (if truthyOpt (lookupField manifest "background") then 1 else 0) +
  (if truthyOpt (lookupField manifest "action") ||
      truthyOpt (lookupField manifest "browser_action") then 1 else 0) +
  (if truthyOpt (lookupField manifest "options_page") then 1 else 0)

/-- `validateContentPolicies(manifest, files, results)` — package-size
check, prohibited-keyword scan over the joined lowercased name and
description, and the single-purpose heuristic. -/
def validateContentPolicies (manifest : Manifest) (files : List FileRec) :
    List StoreValidationResult :=
  let totalSize := totalFileSize files
  let sizeFindings :=
    if totalSize > STORE_REQUIREMENTS.contentMaxPackageSize then
      [mkPackageTooLarge totalSize]
    else []
  let textContent := joinedText manifest
  let prohibitedFindings := STORE_REQUIREMENTS.prohibitedContent.filterMap
    (fun prohibited =>
      if containsSub textContent prohibited then some (mkProhibitedContent prohibited)
      else none)
  let purposeFindings :=
    if purposeCount manifest > 2 then [multipleFunctionalitiesFinding] else []
  sizeFindings ++ prohibitedFindings ++ purposeFindings

/-! ## Driver and scoring (`validateForStore`, `calculateOverallScore`) -/

/-- The per-severity score weights (`weights` in
`calculateOverallScore`). -/
def severityWeight : Severity → Int
  | .critical => -25
  | .high => -15
  | .medium => -10
  | .low => -5

/-- `calculateOverallScore(results)`:
`Math.max(0, Math.min(100, 100 + penalties))` where `penalties` is the
sum of the severity weights over all findings. -/
def calculateOverallScore (results : List StoreValidationResult) : Int :=
  let penalties := results.foldl (fun sum r => sum + severityWeight r.severity) 0
  max 0 (min 100 (100 + penalties))

/-- `validateForStore(manifest, files)` up to the point where the results
are published: the five checks run in fixed order, each appending its
findings to the shared list.  An `Except.error` models the `TypeError`
that aborts the run into the surrounding `catch` block (in which case no
results and no score are published). -/
def validateForStore (manifest : Manifest) (files : List FileRec) :
    Except String (List StoreValidationResult) := do
  let manifestFindings := validateManifestRequirements manifest
  let iconFindings := validateIconRequirements manifest files
  let permissionFindings ← validatePermissionRequirements manifest
  let privacyFindings ← validatePrivacyRequirements manifest
  let contentFindings := validateContentPolicies manifest files
  .ok (manifestFindings ++ iconFindings ++ permissionFindings ++
    privacyFindings ++ contentFindings)

/-- One complete validation run: the published findings together with the
score `calculateOverallScore` derives from exactly those findings
(`setValidationResults(results); calculateOverallScore(results)`). -/
def validate (manifest : Manifest) (files : List FileRec) :
    Except String (List StoreValidationResult × Int) :=
  (validateForStore manifest files).map (fun rs => (rs, calculateOverallScore rs))

/-! ## Spec-side scoring definitions

These two definitions follow the wording of the specification — "the penalty of
a finding is determined solely by its severity: critical = −25,
high = −15, medium = −10, low = −5" and "Score = clamp(100 + sum of
penalties over all findings, 0, 100)" — to be compared against the
`calculateOverallScore` of the implementation. -/

/-- The per-severity penalty as worded in the specification. -/
def specSeverityPenalty : Severity → Int
  | .critical => -25
  | .high => -15
  | .medium => -10
  | .low => -5

/-- The sum of per-finding penalties as worded in the specification. -/
def specPenalties (results : List StoreValidationResult) : Int :=
  (results.map (fun r => specSeverityPenalty r.severity)).sum

/-- The Score as worded in the specification:
`max(0, min(100, 100 + sum of penalties))`. -/
def specScore (results : List StoreValidationResult) : Int :=
  max 0 (min 100 (100 + specPenalties results))

/-! ## Helper lemmas about scoring -/

theorem foldl_severityWeight (l : List StoreValidationResult) (init : Int) :
    l.foldl (fun sum r => sum + severityWeight r.severity) init =
      init + (l.map (fun r => severityWeight r.severity)).sum := by
  induction l generalizing init with
  | nil => simp
  | cons a t ih => simp only [List.foldl_cons, List.map_cons, List.sum_cons, ih]; ring

theorem severityWeight_eq_specSeverityPenalty (s : Severity) :
    severityWeight s = specSeverityPenalty s := by
  cases s <;> rfl

theorem severityWeight_nonpos (s : Severity) : severityWeight s ≤ 0 := by
  cases s <;> decide

theorem specPenalties_nonpos (l : List StoreValidationResult) : specPenalties l ≤ 0 := by
  induction l with
  | nil => simp [specPenalties]
  | cons a t ih =>
      have ha : specSeverityPenalty a.severity ≤ 0 := by
        rw [← severityWeight_eq_specSeverityPenalty]; exact severityWeight_nonpos _
      simp only [specPenalties, List.map_cons, List.sum_cons] at ih ⊢
      omega

theorem calculateOverallScore_eq_specScore (results : List StoreValidationResult) :
    calculateOverallScore results = specScore results := by
  unfold calculateOverallScore specScore specPenalties
  rw [foldl_severityWeight,
    List.map_congr_left (fun r _ => severityWeight_eq_specSeverityPenalty r.severity)]
  simp

theorem specPenalties_append (a b : List StoreValidationResult) :
    specPenalties (a ++ b) = specPenalties a + specPenalties b := by
  simp [specPenalties]

/-! ## C1 -/

/-- **C1.** For every list of findings, the Score equals
`max(0, min(100, 100 + sum of per-finding penalties))` with penalties
critical = −25, high = −15, medium = −10, low = −5 (the spec-worded
`specScore`), and the Score is an integer with `0 ≤ Score ≤ 100`. -/
theorem score_formula_and_bounds (results : List StoreValidationResult) :
    calculateOverallScore results = specScore results ∧
    0 ≤ calculateOverallScore results ∧ calculateOverallScore results ≤ 100 := by
  refine ⟨calculateOverallScore_eq_specScore results, ?_, ?_⟩ <;>
    · rw [calculateOverallScore_eq_specScore]
      unfold specScore
      omega

/-! ## C4 -/

/-- **C4.** Appending one critical finding to any finding list yields
`max(0, min(100, 100 + penalties(r) − 25))`, which equals the old Score
decreased by 25 and clamped below at 0. -/
theorem score_monotonic_critical (r : List StoreValidationResult)
    (f : StoreValidationResult) (h : f.severity = .critical) :
    calculateOverallScore (r ++ [f]) =
      max 0 (min 100 (100 + specPenalties r - 25)) ∧
    calculateOverallScore (r ++ [f]) = max 0 (calculateOverallScore r - 25) := by
  have hpen : specPenalties (r ++ [f]) = specPenalties r - 25 := by
    rw [specPenalties_append]
    simp only [specPenalties, List.map_cons, List.map_nil, List.sum_cons, List.sum_nil, h,
      specSeverityPenalty]
    omega
  have hr := specPenalties_nonpos r
  rw [calculateOverallScore_eq_specScore, calculateOverallScore_eq_specScore r]
  unfold specScore
  rw [hpen]
  constructor
  · omega
  · omega

/-- Witness for C4 at the empty list and the critical privacy-policy
finding. -/
theorem score_monotonic_critical_witness :
    privacyPolicyRequiredFinding.severity = Severity.critical ∧
    (calculateOverallScore ([] ++ [privacyPolicyRequiredFinding]) =
        max 0 (min 100 (100 + specPenalties [] - 25)) ∧
      calculateOverallScore ([] ++ [privacyPolicyRequiredFinding]) =
        max 0 (calculateOverallScore [] - 25)) :=
  ⟨rfl, score_monotonic_critical [] privacyPolicyRequiredFinding rfl⟩

/-! ## C2 -/

/-- **C2.** The validator is deterministic: any two completed runs of
`validate` on identical inputs publish identical ordered finding lists
and identical Scores, and the Score of a run is computed from the finding
list of that run alone (`calculateOverallScore` of exactly the published
findings, with no other state). -/
theorem validate_deterministic_no_carryover (m : Manifest) (f : List FileRec)
    (rs₁ rs₂ : List StoreValidationResult) (s₁ s₂ : Int)
    (h₁ : validate m f = .ok (rs₁, s₁)) (h₂ : validate m f = .ok (rs₂, s₂)) :
    rs₁ = rs₂ ∧ s₁ = s₂ ∧ s₁ = calculateOverallScore rs₁ := by
  have h12 := h₁.symm.trans h₂
  simp only [Except.ok.injEq, Prod.mk.injEq] at h12
  obtain ⟨hrs, hs⟩ := h12
  subst hrs hs
  refine ⟨rfl, rfl, ?_⟩
  unfold validate at h₁
  cases hv : validateForStore m f with
  | error e => rw [hv] at h₁; simp [Except.map] at h₁
  | ok rs =>
      rw [hv] at h₁
      simp only [Except.map, Except.ok.injEq, Prod.mk.injEq] at h₁
      obtain ⟨hrs', hs'⟩ := h₁
      subst hrs'
      exact hs'.symm

/-- The findings of a run over the empty manifest and empty file set. -/
def emptyRunFindings : List StoreValidationResult :=
  [mkMissingField "name", mkMissingField "version", mkMissingField "description",
    mkMissingField "manifest_version", noIconsFinding]

/-- Witness for C2: two runs over the empty manifest and file set. -/
theorem validate_deterministic_witness :
    emptyRunFindings = emptyRunFindings ∧ (0 : Int) = 0 ∧
      (0 : Int) = calculateOverallScore emptyRunFindings :=
  validate_deterministic_no_carryover [] [] emptyRunFindings emptyRunFindings 0 0 rfl rfl

/-! ## C3 -/

theorem nameLengthFindings_nil_of_falsy (m : Manifest)
    (h : truthyOpt (lookupField m "name") = false) : nameLengthFindings m = [] := by
  simp [nameLengthFindings, h]

theorem descriptionLengthFindings_nil_of_falsy (m : Manifest)
    (h : truthyOpt (lookupField m "description") = false) :
    descriptionLengthFindings m = [] := by
  simp [descriptionLengthFindings, h]

theorem versionFormatFindings_nil_of_falsy (m : Manifest)
    (h : truthyOpt (lookupField m "version") = false) : versionFormatFindings m = [] := by
  unfold versionFormatFindings
  cases hv : lookupField m "version" with
  | none => rfl
  | some v =>
      rw [hv] at h
      simp only [truthyOpt] at h
      simp [h]

theorem manifestVersionFindings_nil_of_falsy (m : Manifest)
    (h : truthyOpt (lookupField m "manifest_version") = false) :
    manifestVersionFindings m = [] := by
  unfold manifestVersionFindings
  cases hv : lookupField m "manifest_version" with
  | none => rfl
  | some v =>
      rw [hv] at h
      simp only [truthyOpt] at h
      cases v <;> simp_all [truthy]

/-- A score over findings whose penalties already reach −100 is 0. -/
theorem score_zero_of_penalties_le (rs : List StoreValidationResult)
    (h : specPenalties rs ≤ -100) : calculateOverallScore rs = 0 := by
  rw [calculateOverallScore_eq_specScore]
  unfold specScore
  omega

/-- **C3.** For a manifest in which all four required fields are missing
(falsy) and any file set: the manifest check emits exactly the four
critical error findings, one per field, and any completed run scores 0. -/
theorem all_required_missing (m : Manifest) (files : List FileRec)
    (h : ∀ field ∈ STORE_REQUIREMENTS.manifestRequiredFields,
      truthyOpt (lookupField m field) = false) :
    validateManifestRequirements m =
      STORE_REQUIREMENTS.manifestRequiredFields.map mkMissingField ∧
    (∀ r ∈ validateManifestRequirements m,
      r.type = .error ∧ r.severity = .critical) ∧
    (∀ rs s, validate m files = .ok (rs, s) → s = 0) := by
  have h1 : truthyOpt (lookupField m "name") = false := h "name" (by simp [STORE_REQUIREMENTS.manifestRequiredFields])
  have h2 : truthyOpt (lookupField m "version") = false := h "version" (by simp [STORE_REQUIREMENTS.manifestRequiredFields])
  have h3 : truthyOpt (lookupField m "description") = false := h "description" (by simp [STORE_REQUIREMENTS.manifestRequiredFields])
  have h4 : truthyOpt (lookupField m "manifest_version") = false := h "manifest_version" (by simp [STORE_REQUIREMENTS.manifestRequiredFields])
  have hmain : validateManifestRequirements m =
      STORE_REQUIREMENTS.manifestRequiredFields.map mkMissingField := by
    unfold validateManifestRequirements
    rw [nameLengthFindings_nil_of_falsy m h1, descriptionLengthFindings_nil_of_falsy m h3,
      versionFormatFindings_nil_of_falsy m h2, manifestVersionFindings_nil_of_falsy m h4]
    simp [missingFieldFindings, STORE_REQUIREMENTS.manifestRequiredFields, h1, h2, h3, h4]
  refine ⟨hmain, ?_, ?_⟩
  · intro r hr
    rw [hmain] at hr
    simp only [List.mem_map] at hr
    obtain ⟨f, _, rfl⟩ := hr
    exact ⟨rfl, rfl⟩
  · intro rs s hval
    unfold validate at hval
    cases hv : validateForStore m files with
    | error e => rw [hv] at hval; simp [Except.map] at hval
    | ok rs' =>
        rw [hv] at hval
        simp only [Except.map, Except.ok.injEq, Prod.mk.injEq] at hval
        obtain ⟨-, hs⟩ := hval
        subst hs
        unfold validateForStore at hv
        cases hp : validatePermissionRequirements m with
        | error e => rw [hp] at hv; simp [bind, Except.bind] at hv
        | ok permFindings =>
        cases hq : validatePrivacyRequirements m with
        | error e => rw [hp, hq] at hv; simp [bind, Except.bind] at hv
        | ok privFindings =>
            rw [hp, hq] at hv
            simp only [Except.bind, Except.ok.injEq, bind, pure] at hv
            apply score_zero_of_penalties_le
            rw [← hv]
            rw [hmain]
            have hsum : specPenalties
                (STORE_REQUIREMENTS.manifestRequiredFields.map mkMissingField) = -100 := by
              decide
            simp only [specPenalties_append]
            rw [hsum]
            have n1 := specPenalties_nonpos (validateIconRequirements m files)
            have n2 := specPenalties_nonpos permFindings
            have n3 := specPenalties_nonpos privFindings
            have n4 := specPenalties_nonpos (validateContentPolicies m files)
            omega

/-- Witness for C3 at the empty manifest and empty file set. -/
theorem all_required_missing_witness :
    (∀ field ∈ STORE_REQUIREMENTS.manifestRequiredFields,
      truthyOpt (lookupField ([] : Manifest) field) = false) ∧
    validateManifestRequirements [] =
      STORE_REQUIREMENTS.manifestRequiredFields.map mkMissingField ∧
    (0 : Int) = 0 :=
  ⟨by decide, (all_required_missing [] [] (by decide)).1,
    (all_required_missing [] [] (by decide)).2.2 emptyRunFindings 0 rfl⟩

/-! ## C5 -/

/-- The manifest of the icon-completeness example:
`icons: {"128": "icon128.png"}`. -/
def iconExampleManifest : Manifest :=
  [("icons", .obj [("128", .str "icon128.png")])]

/-- Any finding of the per-entry loop body for a declared icon entry is
emitted by the icons check. -/
theorem mem_validateIcon_of_entry (m : Manifest) (files : List FileRec)
    (fs : List (String × JValue)) (hIcons : lookupField m "icons" = some (.obj fs))
    (sz : String) (path : JValue) (hmem : (sz, path) ∈ fs)
    (r : StoreValidationResult) (hr : r ∈ iconEntryFindings files path) :
    r ∈ validateIconRequirements m files := by
  unfold validateIconRequirements
  rw [hIcons]
  simp only [truthy, if_true]
  apply List.mem_append_right
  exact List.mem_flatten.mpr
    ⟨iconEntryFindings files path, List.mem_map.mpr ⟨(sz, path), hmem, rfl⟩, hr⟩

/-- **C5.** For every declared `(size, path)` icon entry: no matching
file (name equal to, or ending with, the declared path) yields the
high-severity error finding "Icon file not found" for that entry, and a
matched file over 2 MiB yields the medium-severity warning whose message
reports the size in MiB to one decimal place; the example manifest
`icons: {"128": "icon128.png"}` with no matching file yields that high
error plus two high errors for the missing required 16px and 48px
sizes. -/
theorem icon_file_resolution (m : Manifest) (files : List FileRec)
    (fs : List (String × JValue))
    (hIcons : lookupField m "icons" = some (.obj fs)) :
    (∀ sz path, (sz, path) ∈ fs → findIconFile files path = none →
      mkIconNotFound path ∈ validateIconRequirements m files ∧
      (mkIconNotFound path).severity = Severity.high ∧
      (mkIconNotFound path).type = FindingType.error ∧
      (mkIconNotFound path).title = "Icon file not found") ∧
    (∀ sz path file, (sz, path) ∈ fs → findIconFile files path = some file →
      file.size > 2 * 1024 * 1024 →
      mkLargeIcon path file.size ∈ validateIconRequirements m files ∧
      (mkLargeIcon path file.size).severity = Severity.medium ∧
      (mkLargeIcon path file.size).type = FindingType.warning ∧
      (mkLargeIcon path file.size).message =
        "Icon " ++ jsToString path ++ " is " ++ toFixed1MiB file.size ++ "MB") ∧
    (∀ files2 : List FileRec,
      (∀ f ∈ files2, iconFileMatches f (.str "icon128.png") = false) →
      mkIconNotFound (.str "icon128.png") ∈
        validateIconRequirements iconExampleManifest files2 ∧
      mkMissingRequiredIcon 16 ∈ validateIconRequirements iconExampleManifest files2 ∧
      mkMissingRequiredIcon 48 ∈ validateIconRequirements iconExampleManifest files2 ∧
      (mkMissingRequiredIcon 16).severity = Severity.high ∧
      (mkMissingRequiredIcon 16).type = FindingType.error ∧
      (mkMissingRequiredIcon 48).severity = Severity.high ∧
      (mkMissingRequiredIcon 48).type = FindingType.error) := by
  refine ⟨?_, ?_, ?_⟩
  · intro sz path hmem hfind
    refine ⟨?_, rfl, rfl, rfl⟩
    apply mem_validateIcon_of_entry m files fs hIcons sz path hmem
    unfold iconEntryFindings
    rw [hfind]
    exact List.mem_singleton.mpr rfl
  · intro sz path file hmem hfind hsize
    refine ⟨?_, rfl, rfl, rfl⟩
    apply mem_validateIcon_of_entry m files fs hIcons sz path hmem
    unfold iconEntryFindings
    rw [hfind]
    simp only [STORE_REQUIREMENTS.iconsMaxFileSize]
    simp only [gt_iff_lt] at hsize
    rw [if_pos (by omega)]
    exact List.mem_singleton.mpr rfl
  · intro files2 hnomatch
    have hfind : findIconFile files2 (.str "icon128.png") = none := by
      apply List.find?_eq_none.mpr
      intro f hf
      simp [hnomatch f hf]
    refine ⟨?_, ?_, ?_, rfl, rfl, rfl, rfl⟩
    · apply mem_validateIcon_of_entry iconExampleManifest files2
        [("128", .str "icon128.png")] rfl "128" (.str "icon128.png")
        (List.mem_singleton.mpr rfl)
      unfold iconEntryFindings
      rw [hfind]
      exact List.mem_singleton.mpr rfl
    · unfold validateIconRequirements iconExampleManifest
      simp only [lookupField, List.lookup]
      apply List.mem_append_left
      apply List.mem_append_left
      decide
    · unfold validateIconRequirements iconExampleManifest
      simp only [lookupField, List.lookup]
      apply List.mem_append_left
      apply List.mem_append_left
      decide

/-- Witness for C5 at the example manifest and an empty file set. -/
theorem icon_file_resolution_witness :
    lookupField iconExampleManifest "icons" =
      some (JValue.obj [("128", JValue.str "icon128.png")]) ∧
    (mkIconNotFound (JValue.str "icon128.png") ∈
        validateIconRequirements iconExampleManifest [] ∧
      (mkIconNotFound (JValue.str "icon128.png")).severity = Severity.high ∧
      (mkIconNotFound (JValue.str "icon128.png")).type = FindingType.error ∧
      (mkIconNotFound (JValue.str "icon128.png")).title = "Icon file not found") :=
  ⟨rfl, (icon_file_resolution iconExampleManifest [] [("128", .str "icon128.png")] rfl).1
    "128" (JValue.str "icon128.png") (List.mem_singleton.mpr rfl) rfl⟩

/-! ## C6 -/

/-- Adding (or overwriting) a field of the manifest: the resulting
document binds `k` to `v` and leaves every other field lookup
unchanged. -/
def setField (m : Manifest) (k : String) (v : JValue) : Manifest :=
  (k, v) :: m

/-- Adding a truthy `privacy_policy` field removes exactly the
"Privacy policy required" finding from the output of the privacy check and
leaves its other findings (and a thrown `TypeError`) unchanged. -/
theorem privacy_policy_frame (m : Manifest) (v : JValue) (hv : truthy v = true) :
    validatePrivacyRequirements (setField m "privacy_policy" v) =
      Except.map (List.filter (fun r => r.title != "Privacy policy required"))
        (validatePrivacyRequirements m) := by
  have hperm : lookupField (setField m "privacy_policy" v) "permissions" =
      lookupField m "permissions" := rfl
  have hpp : lookupField (setField m "privacy_policy" v) "privacy_policy" = some v := rfl
  have hTv : truthyOpt (some v) = true := by simpa [truthyOpt] using hv
  unfold validatePrivacyRequirements
  rw [hperm, hpp]
  simp only [bind, Except.bind]
  cases hc : permsSomeInList (lookupField m "permissions")
      STORE_REQUIREMENTS.dataCollectionApis with
  | error e => rfl
  | ok b =>
    cases hi : permsIncludes (lookupField m "permissions") "identity" with
    | error e => rfl
    | ok bi =>
      cases hcc : permsIncludes (lookupField m "permissions") "cookies" with
      | error e => rfl
      | ok bc =>
        rw [hTv]
        cases b <;> cases bi <;> cases bc <;>
          cases htp : truthyOpt (lookupField m "privacy_policy") <;> rfl

/-- **C6.** A manifest with `permissions = ["tabs"]` and no
`privacy_policy` field gets exactly one critical "Privacy policy
required" finding from the privacy check; adding a (truthy)
`privacy_policy` value to any manifest removes exactly that finding and
leaves the output of every other check, and every other privacy finding,
unchanged. -/
theorem privacy_gating_and_frame (m : Manifest) (files : List FileRec) (v : JValue)
    (hv : truthy v = true) :
    (lookupField m "permissions" = some (.arr [.str "tabs"]) →
      lookupField m "privacy_policy" = none →
      validatePrivacyRequirements m = .ok [privacyPolicyRequiredFinding]) ∧
    validateManifestRequirements (setField m "privacy_policy" v) =
      validateManifestRequirements m ∧
    validateIconRequirements (setField m "privacy_policy" v) files =
      validateIconRequirements m files ∧
    validatePermissionRequirements (setField m "privacy_policy" v) =
      validatePermissionRequirements m ∧
    validateContentPolicies (setField m "privacy_policy" v) files =
      validateContentPolicies m files ∧
    validatePrivacyRequirements (setField m "privacy_policy" v) =
      Except.map (List.filter (fun r => r.title != "Privacy policy required"))
        (validatePrivacyRequirements m) := by
  refine ⟨?_, rfl, rfl, rfl, rfl, privacy_policy_frame m v hv⟩
  intro hperm hpp
  unfold validatePrivacyRequirements
  rw [hperm, hpp]
  rfl

/-- Witness for C6: `permissions = ["tabs"]`, adding
`privacy_policy = "https://example.com/policy"`. -/
theorem privacy_gating_and_frame_witness :
    truthy (JValue.str "https://example.com/policy") = true ∧
    validatePrivacyRequirements [("permissions", JValue.arr [JValue.str "tabs"])] =
      .ok [privacyPolicyRequiredFinding] ∧
    validatePrivacyRequirements
        (setField [("permissions", JValue.arr [JValue.str "tabs"])] "privacy_policy"
          (JValue.str "https://example.com/policy")) =
      Except.map (List.filter (fun r => r.title != "Privacy policy required"))
        (validatePrivacyRequirements [("permissions", JValue.arr [JValue.str "tabs"])]) :=
  ⟨rfl,
    (privacy_gating_and_frame [("permissions", JValue.arr [JValue.str "tabs"])] []
      (JValue.str "https://example.com/policy") rfl).1 rfl rfl,
    (privacy_gating_and_frame [("permissions", JValue.arr [JValue.str "tabs"])] []
      (JValue.str "https://example.com/policy") rfl).2.2.2.2.2⟩

/-! ## C7 -/

/-- Neither the prohibited-content findings nor the single-purpose
finding of the content check is titled "Package too large". -/
theorem content_rest_not_titled_ptl (m : Manifest) :
    ∀ r ∈ (STORE_REQUIREMENTS.prohibitedContent.filterMap
        (fun prohibited =>
          if containsSub (joinedText m) prohibited then some (mkProhibitedContent prohibited)
          else none)) ++
      (if purposeCount m > 2 then [multipleFunctionalitiesFinding] else []),
      ¬ (r.title == "Package too large") = true := by
  intro r hr
  rcases List.mem_append.mp hr with h | h
  · obtain ⟨p, -, hp⟩ := List.mem_filterMap.mp h
    split at hp
    · cases hp
      exact (by decide :
        ¬(("Potentially prohibited content" : String) == "Package too large") = true)
    · cases hp
  · split at h
    · rw [List.mem_singleton.mp h]; decide
    · cases h

/-- **C7.** A file set totalling more than 128 MiB yields exactly one
high-severity error finding "Package too large" from the content check,
whose message reports the size in MiB to one decimal place (130 MiB is
formatted "130.0"); a total of at most 128 MiB yields no such
finding. -/
theorem package_size_rule (m : Manifest) (files : List FileRec) :
    (totalFileSize files > 128 * 1024 * 1024 →
      (validateContentPolicies m files).filter
          (fun r => r.title == "Package too large") =
        [mkPackageTooLarge (totalFileSize files)] ∧
      (mkPackageTooLarge (totalFileSize files)).severity = Severity.high ∧
      (mkPackageTooLarge (totalFileSize files)).type = FindingType.error ∧
      (mkPackageTooLarge (totalFileSize files)).message =
        "Extension package is " ++ toFixed1MiB (totalFileSize files) ++ "MB") ∧
    (totalFileSize files ≤ 128 * 1024 * 1024 →
      (validateContentPolicies m files).filter
          (fun r => r.title == "Package too large") = []) ∧
    toFixed1MiB (130 * 1024 * 1024) = "130.0" := by
  have hrest := List.filter_eq_nil_iff.mpr (content_rest_not_titled_ptl m)
  refine ⟨?_, ?_, rfl⟩
  · intro hgt
    refine ⟨?_, rfl, rfl, rfl⟩
    unfold validateContentPolicies
    rw [List.append_assoc, List.filter_append]
    rw [if_pos (by simpa [STORE_REQUIREMENTS.contentMaxPackageSize] using hgt)]
    rw [hrest]
    rfl
  · intro hle
    unfold validateContentPolicies
    rw [List.append_assoc, List.filter_append]
    rw [if_neg (by simp only [STORE_REQUIREMENTS.contentMaxPackageSize]; omega)]
    rw [hrest]
    rfl

/-- Witness for C7 at a 130 MiB file set and a 100 MiB file set. -/
theorem package_size_rule_witness :
    (totalFileSize [FileRec.mk "big.bin" (130 * 1024 * 1024)] > 128 * 1024 * 1024 ∧
      (validateContentPolicies [] [FileRec.mk "big.bin" (130 * 1024 * 1024)]).filter
          (fun r => r.title == "Package too large") =
        [mkPackageTooLarge (totalFileSize [FileRec.mk "big.bin" (130 * 1024 * 1024)])]) ∧
    (totalFileSize [FileRec.mk "ok.bin" (100 * 1024 * 1024)] ≤ 128 * 1024 * 1024 ∧
      (validateContentPolicies [] [FileRec.mk "ok.bin" (100 * 1024 * 1024)]).filter
          (fun r => r.title == "Package too large") = []) :=
  ⟨⟨by decide,
      ((package_size_rule [] [FileRec.mk "big.bin" (130 * 1024 * 1024)]).1 (by decide)).1⟩,
    ⟨by decide,
      (package_size_rule [] [FileRec.mk "ok.bin" (100 * 1024 * 1024)]).2.1 (by decide)⟩⟩

/-! ## C8 -/

/-- **C8 counterexample.** The decoded document `{"permissions": 5}` —
a perfectly valid key-value JSON document — makes the validation run
raise a `TypeError` (the `for..of` of the permission check over a truthy
non-iterable), so the run does not complete and the two later checks
never execute. -/
theorem validator_not_total_counterexample :
    validateForStore [("permissions", JValue.num 5)] [] =
      .error "TypeError: value is not iterable" := rfl

/-- The shapes of the `permissions` field under which no `TypeError` can
be raised: absent, `null`, or an array of strings. -/
def permissionsWellShaped (m : Manifest) : Bool :=
  match lookupField m "permissions" with
  | none => true
  | some .null => true
  | some (.arr xs) => xs.all (fun x => match x with | .str _ => true | _ => false)
  | some _ => false

theorem someIncludesScheme_ok (xs : List JValue)
    (h : ∀ x ∈ xs, ∃ s, x = JValue.str s) :
    ∃ b, someIncludesScheme xs = .ok b := by
  induction xs with
  | nil => exact ⟨false, rfl⟩
  | cons x rest ih =>
      obtain ⟨s, rfl⟩ := h x (List.mem_cons_self x rest)
      obtain ⟨b, hb⟩ := ih (fun y hy => h y (List.mem_cons_of_mem _ hy))
      unfold someIncludesScheme
      simp only [jsElemIncludesScheme, bind, Except.bind]
      cases hcs : containsSub s "://" with
      | true => exact ⟨true, by simp [hcs]⟩
      | false => exact ⟨b, by simp [hcs, hb]⟩

theorem perm_check_ok_of_wellShaped (m : Manifest)
    (h : permissionsWellShaped m = true) :
    ∃ fs, validatePermissionRequirements m = .ok fs := by
  unfold permissionsWellShaped at h
  unfold validatePermissionRequirements
  cases hperm : lookupField m "permissions" with
  | none => exact ⟨[], rfl⟩
  | some pv =>
      rw [hperm] at h
      cases pv with
      | null => exact ⟨[], rfl⟩
      | bool b => simp at h
      | num n => simp at h
      | str s => simp at h
      | obj fs => simp at h
      | arr xs =>
          rw [if_neg (by simp [truthyOpt, truthy])]
          simp only [bind, Except.bind, jsIterate]
          split
          · have hstr : ∀ x ∈ xs, ∃ s, x = JValue.str s := by
              intro x hx
              have hx' := List.all_eq_true.mp h x hx
              cases x <;> simp_all
            obtain ⟨b, hb⟩ := someIncludesScheme_ok xs hstr
            rw [show permsSomeIncludesScheme (.arr xs) = someIncludesScheme xs from rfl,
              hb]
            cases b <;> exact ⟨_, rfl⟩
          · exact ⟨_, rfl⟩

theorem priv_check_ok_of_wellShaped (m : Manifest)
    (h : permissionsWellShaped m = true) :
    ∃ fs, validatePrivacyRequirements m = .ok fs := by
  unfold permissionsWellShaped at h
  unfold validatePrivacyRequirements
  cases hperm : lookupField m "permissions" with
  | none => exact ⟨_, rfl⟩
  | some pv =>
      rw [hperm] at h
      cases pv with
      | null => exact ⟨_, rfl⟩
      | bool b => simp at h
      | num n => simp at h
      | str s => simp at h
      | obj fs => simp at h
      | arr xs => exact ⟨_, rfl⟩

/-- **C8 amended.** For every decoded manifest whose `permissions` field
is absent, `null`, or an array of strings (and arbitrary other fields,
of any shape), and every file set, the validation run completes without
raising, with all five checks executing: the published findings are
exactly the concatenation of the findings of the five checks in fixed
order. -/
theorem validator_total_when_permissions_wellShaped (m : Manifest)
    (files : List FileRec) (h : permissionsWellShaped m = true) :
    ∃ permissionFindings privacyFindings,
      validatePermissionRequirements m = .ok permissionFindings ∧
      validatePrivacyRequirements m = .ok privacyFindings ∧
      validateForStore m files = .ok
        (validateManifestRequirements m ++ validateIconRequirements m files ++
          permissionFindings ++ privacyFindings ++ validateContentPolicies m files) := by
  obtain ⟨p, hp⟩ := perm_check_ok_of_wellShaped m h
  obtain ⟨q, hq⟩ := priv_check_ok_of_wellShaped m h
  refine ⟨p, q, hp, hq, ?_⟩
  unfold validateForStore
  simp only [bind, Except.bind]
  rw [hp, hq]

/-- Witness for the amended C8 at `permissions = ["tabs"]`. -/
theorem validator_total_witness :
    permissionsWellShaped [("permissions", JValue.arr [JValue.str "tabs"])] = true ∧
    ∃ permissionFindings privacyFindings,
      validatePermissionRequirements [("permissions", JValue.arr [JValue.str "tabs"])] =
        .ok permissionFindings ∧
      validatePrivacyRequirements [("permissions", JValue.arr [JValue.str "tabs"])] =
        .ok privacyFindings ∧
      validateForStore [("permissions", JValue.arr [JValue.str "tabs"])] [] = .ok
        (validateManifestRequirements [("permissions", JValue.arr [JValue.str "tabs"])] ++
          validateIconRequirements [("permissions", JValue.arr [JValue.str "tabs"])] [] ++
          permissionFindings ++ privacyFindings ++
          validateContentPolicies [("permissions", JValue.arr [JValue.str "tabs"])] []) :=
  ⟨rfl, validator_total_when_permissions_wellShaped
    [("permissions", JValue.arr [JValue.str "tabs"])] [] rfl⟩

/-! ## C9 -/

/-- **C9.** The content check emits the low-severity info finding
"Multiple functionalities detected" if and only if the purpose count —
the number of true values among the four functionality tests of the
source — exceeds 2. -/
theorem purpose_count_rule (m : Manifest) (files : List FileRec) :
    multipleFunctionalitiesFinding ∈ validateContentPolicies m files ↔
      purposeCount m > 2 := by
  unfold validateContentPolicies
  constructor
  · intro h
    rcases List.mem_append.mp h with h1 | h2
    · rcases List.mem_append.mp h1 with ha | hb
      · by_cases hc : totalFileSize files > STORE_REQUIREMENTS.contentMaxPackageSize
        · rw [if_pos hc] at ha
          exact absurd (congrArg StoreValidationResult.title (List.mem_singleton.mp ha))
            (by decide :
              ¬ ("Multiple functionalities detected" : String) = "Package too large")
        · rw [if_neg hc] at ha
          exact absurd ha (List.not_mem_nil _)
      · obtain ⟨p, -, hp⟩ := List.mem_filterMap.mp hb
        split at hp
        · have hp' := Option.some.inj hp
          exact absurd (congrArg StoreValidationResult.title hp'.symm)
            (by decide :
              ¬ ("Multiple functionalities detected" : String) =
                "Potentially prohibited content")
        · cases hp
    · by_cases hc : purposeCount m > 2
      · exact hc
      · rw [if_neg hc] at h2
        exact absurd h2 (List.not_mem_nil _)
  · intro hgt
    apply List.mem_append_right
    rw [if_pos hgt]
    exact List.mem_singleton.mpr rfl

/-- Witness for C9 at a manifest declaring all four functionality
kinds. -/
theorem purpose_count_rule_witness :
    multipleFunctionalitiesFinding ∈ validateContentPolicies
      [("content_scripts", JValue.arr [JValue.obj []]),
        ("background", JValue.obj []),
        ("action", JValue.obj []),
        ("options_page", JValue.str "options.html")] [] :=
  (purpose_count_rule
    [("content_scripts", JValue.arr [JValue.obj []]),
      ("background", JValue.obj []),
      ("action", JValue.obj []),
      ("options_page", JValue.str "options.html")] []).mpr (by decide)

/-! ## C10 -/

theorem mem_nameLengthFindings (m : Manifest) (r : StoreValidationResult)
    (h : r ∈ nameLengthFindings m) :
    r = nameTooShortFinding ∨ r = nameTooLongFinding := by
  unfold nameLengthFindings at h
  split at h
  · split at h
    · split at h
      · exact Or.inl (List.mem_singleton.mp h)
      · split at h
        · exact Or.inr (List.mem_singleton.mp h)
        · exact absurd h (List.not_mem_nil _)
    · exact absurd h (List.not_mem_nil _)
  · exact absurd h (List.not_mem_nil _)

theorem mem_descriptionLengthFindings (m : Manifest) (r : StoreValidationResult)
    (h : r ∈ descriptionLengthFindings m) :
    r = descTooShortFinding ∨ r = descTooLongFinding := by
  unfold descriptionLengthFindings at h
  split at h
  · split at h
    · split at h
      · exact Or.inl (List.mem_singleton.mp h)
      · split at h
        · exact Or.inr (List.mem_singleton.mp h)
        · exact absurd h (List.not_mem_nil _)
    · exact absurd h (List.not_mem_nil _)
  · exact absurd h (List.not_mem_nil _)

theorem mem_versionFormatFindings (m : Manifest) (r : StoreValidationResult)
    (h : r ∈ versionFormatFindings m) : r = invalidVersionFinding := by
  unfold versionFormatFindings at h
  split at h
  · split at h
    · exact List.mem_singleton.mp h
    · exact absurd h (List.not_mem_nil _)
  · exact absurd h (List.not_mem_nil _)

theorem mem_manifestVersionFindings (m : Manifest) (r : StoreValidationResult)
    (h : r ∈ manifestVersionFindings m) : r = manifestV2Finding := by
  unfold manifestVersionFindings at h
  split at h
  · exact List.mem_singleton.mp h
  · exact absurd h (List.not_mem_nil _)

theorem mem_missingFieldFindings (m : Manifest) (r : StoreValidationResult)
    (h : r ∈ missingFieldFindings m) :
    ∃ f ∈ STORE_REQUIREMENTS.manifestRequiredFields, r = mkMissingField f := by
  unfold missingFieldFindings at h
  obtain ⟨f, hf, hfr⟩ := List.mem_filterMap.mp h
  refine ⟨f, hf, ?_⟩
  split at hfr
  · cases hfr
  · exact (Option.some.inj hfr).symm

/-- **C10.** Required-field presence is JavaScript truthiness, not key
membership: a required field bound to a falsy value (empty string, 0,
false, or null) is reported "Missing <field>" as a critical error, and
the follow-up validations of that field are skipped (its length-, version- or
manifest-version branch emits nothing). -/
theorem required_field_truthiness (m : Manifest) (field : String) (v : JValue)
    (hf : field ∈ STORE_REQUIREMENTS.manifestRequiredFields)
    (hl : lookupField m field = some v)
    (hfalsy : truthy v = false) :
    mkMissingField field ∈ validateManifestRequirements m ∧
    (mkMissingField field).type = FindingType.error ∧
    (mkMissingField field).severity = Severity.critical ∧
    (mkMissingField field).title = "Missing " ++ field ∧
    (field = "name" → nameLengthFindings m = [] ∧
      ∀ r ∈ validateManifestRequirements m,
        r.title ≠ "Name too short" ∧ r.title ≠ "Name too long") ∧
    (field = "description" → descriptionLengthFindings m = [] ∧
      ∀ r ∈ validateManifestRequirements m,
        r.title ≠ "Description too short" ∧ r.title ≠ "Description too long") ∧
    (field = "version" → versionFormatFindings m = [] ∧
      ∀ r ∈ validateManifestRequirements m, r.title ≠ "Invalid version format") ∧
    (field = "manifest_version" → manifestVersionFindings m = [] ∧
      ∀ r ∈ validateManifestRequirements m, r.title ≠ "Manifest V2 deprecation") := by
  have hto : truthyOpt (lookupField m field) = false := by
    rw [hl]; simpa [truthyOpt] using hfalsy
  have hmem : mkMissingField field ∈ validateManifestRequirements m := by
    unfold validateManifestRequirements
    apply List.mem_append_left
    apply List.mem_append_left
    apply List.mem_append_left
    apply List.mem_append_left
    exact List.mem_filterMap.mpr ⟨field, hf, by simp [hto]⟩
  have hmissing_titles : ∀ r ∈ missingFieldFindings m,
      r.title = "Missing name" ∨ r.title = "Missing version" ∨
      r.title = "Missing description" ∨ r.title = "Missing manifest_version" := by
    intro r hr
    obtain ⟨f, hfm, rfl⟩ := mem_missingFieldFindings m r hr
    simp only [STORE_REQUIREMENTS.manifestRequiredFields, List.mem_cons,
      List.mem_singleton] at hfm
    rcases hfm with rfl | rfl | rfl | (rfl | hfm)
    · exact Or.inl rfl
    · exact Or.inr (Or.inl rfl)
    · exact Or.inr (Or.inr (Or.inl rfl))
    · exact Or.inr (Or.inr (Or.inr rfl))
    · exact absurd hfm (List.not_mem_nil f)
  refine ⟨hmem, rfl, rfl, rfl, ?_, ?_, ?_, ?_⟩
  · rintro rfl
    have hnil := nameLengthFindings_nil_of_falsy m hto
    refine ⟨hnil, ?_⟩
    intro r hr
    unfold validateManifestRequirements at hr
    rw [hnil] at hr
    simp only [List.append_nil, List.mem_append] at hr
    rcases hr with ((hr | hr) | hr) | hr
    · rcases hmissing_titles r hr with ht | ht | ht | ht <;> rw [ht] <;> exact ⟨by decide, by decide⟩
    · rcases mem_descriptionLengthFindings m r hr with rfl | rfl <;> exact ⟨by decide, by decide⟩
    · rw [mem_versionFormatFindings m r hr]; exact ⟨by decide, by decide⟩
    · rw [mem_manifestVersionFindings m r hr]; exact ⟨by decide, by decide⟩
  · rintro rfl
    have hnil := descriptionLengthFindings_nil_of_falsy m hto
    refine ⟨hnil, ?_⟩
    intro r hr
    unfold validateManifestRequirements at hr
    rw [hnil] at hr
    simp only [List.append_nil, List.mem_append] at hr
    rcases hr with ((hr | hr) | hr) | hr
    · rcases hmissing_titles r hr with ht | ht | ht | ht <;> rw [ht] <;> exact ⟨by decide, by decide⟩
    · rcases mem_nameLengthFindings m r hr with rfl | rfl <;> exact ⟨by decide, by decide⟩
    · rw [mem_versionFormatFindings m r hr]; exact ⟨by decide, by decide⟩
    · rw [mem_manifestVersionFindings m r hr]; exact ⟨by decide, by decide⟩
  · rintro rfl
    have hnil := versionFormatFindings_nil_of_falsy m hto
    refine ⟨hnil, ?_⟩
    intro r hr
    unfold validateManifestRequirements at hr
    rw [hnil] at hr
    simp only [List.append_nil, List.mem_append] at hr
    rcases hr with ((hr | hr) | hr) | hr
    · rcases hmissing_titles r hr with ht | ht | ht | ht <;> rw [ht] <;> decide
    · rcases mem_nameLengthFindings m r hr with rfl | rfl <;> decide
    · rcases mem_descriptionLengthFindings m r hr with rfl | rfl <;> decide
    · rw [mem_manifestVersionFindings m r hr]; decide
  · rintro rfl
    have hnil := manifestVersionFindings_nil_of_falsy m hto
    refine ⟨hnil, ?_⟩
    intro r hr
    unfold validateManifestRequirements at hr
    rw [hnil] at hr
    simp only [List.append_nil, List.mem_append] at hr
    rcases hr with (((hr | hr) | hr) | hr)
    · rcases hmissing_titles r hr with ht | ht | ht | ht <;> rw [ht] <;> decide
    · rcases mem_nameLengthFindings m r hr with rfl | rfl <;> decide
    · rcases mem_descriptionLengthFindings m r hr with rfl | rfl <;> decide
    · rw [mem_versionFormatFindings m r hr]; decide

/-- Witness for C10 at `name: ""` (present but falsy). -/
theorem required_field_truthiness_witness :
    "name" ∈ STORE_REQUIREMENTS.manifestRequiredFields ∧
    lookupField [("name", JValue.str "")] "name" = some (JValue.str "") ∧
    truthy (JValue.str "") = false ∧
    mkMissingField "name" ∈ validateManifestRequirements [("name", JValue.str "")] ∧
    nameLengthFindings [("name", JValue.str "")] = [] :=
  ⟨by decide, rfl, rfl,
    (required_field_truthiness [("name", JValue.str "")] "name" (JValue.str "")
      (by decide) rfl rfl).1,
    ((required_field_truthiness [("name", JValue.str "")] "name" (JValue.str "")
      (by decide) rfl rfl).2.2.2.2.1 rfl).1⟩

end StoreValidator
